import Mathlib

/-!
Verification of the tab-bar core of the Arto desktop application:
the in-window reorder algorithm with active-index rebasing
(`handle_tab_reorder` in `src/desktop/src/components/tab_bar.rs`),
the transferability predicate, and the cross-window two-phase
tab-transfer flow (`handle_move_to_window`, `handle_open_in_new_window`,
and the drag-end handler).
-/

namespace Arto

/-- Result of `handle_tab_reorder`: the tab sequence, the active index, and
the returned `Option<usize>` (the new index of the moved tab, or `none`). -/
structure ReorderResult (α : Type) where
  tabs : List α
  active : Nat
  result : Option Nat
  deriving Repr, DecidableEq

/-- Shallow embedding of `handle_tab_reorder` from
`src/desktop/src/components/tab_bar.rs` (lines 16-59).  The Rust code
checks `from_index == to_index`, then the bounds
`from_index >= tabs.len() || to_index > tabs.len()`, removes the tab at
`from_index` (`Vec::remove` = `List.eraseIdx`), computes
`insert_index = if from_index < to_index { to_index - 1 } else { to_index }`,
re-inserts it there (`Vec::insert` = `List.insertIdx`), and rebases the
active index by the four-armed `match`. -/
def handle_tab_reorder {α : Type} (tabs : List α) (active : Nat)
    (from_index to_index : Nat) : ReorderResult α :=
  if from_index = to_index then
    ⟨tabs, active, none⟩
  else if h : tabs.length ≤ from_index ∨ tabs.length < to_index then
    ⟨tabs, active, none⟩
  else
    let tab := tabs.get ⟨from_index, Nat.lt_of_not_le fun hge => h (Or.inl hge)⟩
    let rest := tabs.eraseIdx from_index
    let insert_index := if from_index < to_index then to_index - 1 else to_index
    let newTabs := rest.insertIdx insert_index tab
    let new_active :=
      if active = from_index then insert_index
      else if from_index < active ∧ active ≤ insert_index then active - 1
      else if insert_index ≤ active ∧ active < from_index then active + 1
      else active
    ⟨newTabs, new_active, some insert_index⟩

/-- The corrected insertion index of a reorder, as computed by the source. -/
def insertIndex (from_index to_index : Nat) : Nat :=
  if from_index < to_index then to_index - 1 else to_index

/-- Modelled from the spec: the variants of `TabContent` in the `state`
module's tabs file (not present under `src/`), as matched on in
`tab_bar.rs`: an open file, a file error, an inline/welcome view, the
preferences view, or the empty placeholder (`None`).  Paths, error payloads
and inline payloads are abstracted as strings. -/
inductive TabContent where
  | File : String → TabContent
  | FileError : String → String → TabContent
  | Inline : String → TabContent
  | Preferences : TabContent
  | None : TabContent
  deriving Repr, DecidableEq

/-- Modelled from the spec: a `Tab` is an identifier-bearing unit of content
(the `state` module's tabs file is not present under `src/`); only the
content field is inspected by the tab-bar code. -/
structure Tab where
  id : Nat
  content : TabContent
  deriving Repr, DecidableEq

/-- Shallow embedding of the `is_transferable` computation in `TabItem`
(`tab_bar.rs` lines 135-139): `matches!(tab.content, File(_) | FileError(_, _))
&& tabs_count > 1`. -/
def is_transferable (tab : Tab) (tabs_count : Nat) : Bool :=
  (match tab.content with
   | TabContent.File _ => true
   | TabContent.FileError _ _ => true
   | _ => false) && decide (1 < tabs_count)

/-- Window identifiers (tao `WindowId`), abstracted as naturals. -/
abbrev WindowId := Nat

/-- Request identifiers (`uuid::Uuid`, 128-bit random), abstracted as
naturals; all that matters to the protocol is decidable equality. -/
abbrev Uuid := Nat

/-- The `TabTransferResponse` message from the `events` module (declared
outside `src/`, used in `handle_move_to_window`): `Ack { request_id, .. }`
carrying the responder window, or `Nack { request_id, reason, .. }`. -/
inductive TabTransferResponse where
  | Ack : Uuid → WindowId → TabTransferResponse
  | Nack : Uuid → String → TabTransferResponse
  deriving Repr, DecidableEq

/-- The request identifier carried by a response. -/
def responseId : TabTransferResponse → Uuid
  | TabTransferResponse.Ack id _ => id
  | TabTransferResponse.Nack id _ => id

/-- Whether a response carries the given request identifier (the guard
`id == request_id` of the two match arms of the wait loop). -/
def matchesId (request_id : Uuid) (r : TabTransferResponse) : Bool :=
  decide (responseId r = request_id)

/-- Modelled from the spec: `AppState::get_tab` (the `state` module's tabs
file is not present under `src/`) returns a value-copy of the tab at
`index`, if any; the tab remains physically present in the collection. -/
def get_tab (tabs : List Tab) (index : Nat) : Option Tab :=
  tabs[index]?

/-- Modelled from the spec: `AppState::close_tab` (the `state` module's tabs
file is not present under `src/`) removes the tab at `index` from the
collection — "source removes the tab from its own collection".  Only the
effect on the tab sequence is modelled. -/
def close_tab (tabs : List Tab) (index : Nat) : List Tab :=
  tabs.eraseIdx index

/-- Outcome of the response-wait loop of `handle_move_to_window`. -/
inductive TransferOutcome where
  | commit : TransferOutcome
  | rollbackNack : TransferOutcome
  | rollbackTimeout : TransferOutcome
  deriving Repr, DecidableEq

/-- Shallow embedding of the `tokio::select!` wait loop of
`handle_move_to_window` (`tab_bar.rs` lines 220-250): the spawned task
consumes the finite sequence of responses delivered before the 3-second
timeout fires; a matching `Ack` commits, a matching `Nack` rolls back,
a response with a non-matching identifier is ignored and listening
continues; exhausting the sequence is the timeout. -/
def processResponses (request_id : Uuid) : List TabTransferResponse → TransferOutcome
  | [] => TransferOutcome.rollbackTimeout
  | TabTransferResponse.Ack id _ :: rest =>
    if id = request_id then TransferOutcome.commit
    else processResponses request_id rest
  | TabTransferResponse.Nack id _ :: rest =>
    if id = request_id then TransferOutcome.rollbackNack
    else processResponses request_id rest

/-- Externally visible actions of the transfer task, in program order. -/
inductive TransferEvent where
  | subscribe : TransferEvent
  | publish : Uuid → TransferEvent
  | closeTab : Nat → TransferEvent
  deriving Repr, DecidableEq

/-- Shallow embedding of `handle_move_to_window` (`tab_bar.rs` lines
187-254).  The handler captures a value-copy of the tab at `index` (no
mutation); the spawned task subscribes to the response channel, then
publishes the request (`publish_ok` models whether
`TAB_TRANSFER_REQUEST.send` succeeded — on failure it returns at once with
no retry), then runs the wait loop; only a matching `Ack` leads to
`close_tab`.  Returns the final tab collection and the trace of the task's
externally visible actions. -/
def handle_move_to_window (tabs : List Tab) (index : Nat) (request_id : Uuid)
    (publish_ok : Bool) (responses : List TabTransferResponse) :
    List Tab × List TransferEvent :=
  match get_tab tabs index with
  | Option.none => (tabs, [])
  | Option.some _ =>
    if publish_ok = false then
      (tabs, [TransferEvent.subscribe, TransferEvent.publish request_id])
    else
      match processResponses request_id responses with
      | TransferOutcome.commit =>
        (close_tab tabs index,
          [TransferEvent.subscribe, TransferEvent.publish request_id,
            TransferEvent.closeTab index])
      | TransferOutcome.rollbackNack =>
        (tabs, [TransferEvent.subscribe, TransferEvent.publish request_id])
      | TransferOutcome.rollbackTimeout =>
        (tabs, [TransferEvent.subscribe, TransferEvent.publish request_id])

/-- Shallow embedding of `handle_open_in_new_window` (`tab_bar.rs` lines
168-184): the handler captures the tab, spawns the window-creation task
("simple fire-and-forget" per the source comment), and calls
`state.close_tab(index)` immediately, without awaiting the spawned
creation.  `creation_succeeded` records whether the spawned
`create_new_main_window` call eventually runs to completion; the handler's
effect on the source collection does not consult it. -/
def handle_open_in_new_window (tabs : List Tab) (index : Nat)
    (creation_succeeded : Bool) : List Tab :=
  match get_tab tabs index with
  | Option.none => tabs
  | Option.some _ =>
    let _ := creation_succeeded
    close_tab tabs index

/-- Shallow embedding of the `ondragend` closure's new-window branch
(`tab_bar.rs` lines 287-321): inside the spawned task the window creation
is awaited to completion ("Create window first, then close source tab")
and only then is the source tab closed.  `creation_completed` says whether
the awaited creation ran to completion; if it does not, the continuation
after the await never runs and the collection is untouched. -/
def dragend_new_window (tabs : List Tab) (index : Nat)
    (creation_completed : Bool) : List Tab :=
  match get_tab tabs index with
  | Option.none => tabs
  | Option.some _ =>
    if creation_completed then close_tab tabs index else tabs

/-- A concrete file-backed tab, used for witnesses and counterexamples. -/
def tabA : Tab := ⟨0, TabContent.File "/a.md"⟩

/-- A second concrete file-backed tab. -/
def tabB : Tab := ⟨1, TabContent.File "/b.md"⟩

/-- A third concrete file-backed tab. -/
def tabC : Tab := ⟨2, TabContent.File "/c.md"⟩

theorem handle_tab_reorder_eq_of_valid {α : Type} (tabs : List α) (active : Nat)
    (from_index to_index : Nat) (hne : from_index ≠ to_index)
    (hf : from_index < tabs.length) (ht : to_index ≤ tabs.length) :
    handle_tab_reorder tabs active from_index to_index =
      ⟨(tabs.eraseIdx from_index).insertIdx (insertIndex from_index to_index)
          (tabs.get ⟨from_index, hf⟩),
        (if active = from_index then insertIndex from_index to_index
         else if from_index < active ∧ active ≤ insertIndex from_index to_index then
           active - 1
         else if insertIndex from_index to_index ≤ active ∧ active < from_index then
           active + 1
         else active),
        some (insertIndex from_index to_index)⟩ := by
  unfold handle_tab_reorder insertIndex
  rw [if_neg hne, dif_neg (by omega)]

theorem handle_tab_reorder_noop {α : Type} (tabs : List α) (active : Nat)
    (from_index to_index : Nat)
    (h : from_index = to_index ∨ tabs.length ≤ from_index ∨ tabs.length < to_index) :
    handle_tab_reorder tabs active from_index to_index = ⟨tabs, active, none⟩ := by
  unfold handle_tab_reorder
  by_cases heq : from_index = to_index
  · rw [if_pos heq]
  · rw [if_neg heq, dif_pos (by omega)]

theorem perm_insertIdx {α : Type} (a : α) :
    ∀ (n : Nat) (l : List α), n ≤ l.length → (l.insertIdx n a).Perm (a :: l)
  | 0, l, _ => by rw [List.insertIdx_zero]
  | n + 1, [], h => by simp at h
  | n + 1, b :: l, h => by
    rw [List.insertIdx_succ_cons]
    exact ((perm_insertIdx a n l (Nat.le_of_succ_le_succ h)).cons b).trans
      (List.Perm.swap a b l)

theorem perm_get_cons_eraseIdx {α : Type} :
    ∀ (l : List α) (i : Nat) (h : i < l.length),
      l.Perm (l.get ⟨i, h⟩ :: l.eraseIdx i)
  | _ :: _, 0, _ => List.Perm.refl _
  | b :: l, i + 1, h => by
    have ih := perm_get_cons_eraseIdx l i (Nat.lt_of_succ_lt_succ h)
    exact (ih.cons b).trans (List.Perm.swap _ b _)

theorem insertIdx_get_eraseIdx {α : Type} :
    ∀ (l : List α) (i : Nat) (h : i < l.length),
      (l.eraseIdx i).insertIdx i (l.get ⟨i, h⟩) = l
  | _ :: _, 0, _ => rfl
  | b :: l, i + 1, h => by
    have ih := insertIdx_get_eraseIdx l i (Nat.lt_of_succ_lt_succ h)
    show b :: (l.eraseIdx i).insertIdx i (l.get _) = b :: l
    rw [ih]

theorem reorder_tabs_perm {α : Type} (tabs : List α) (active : Nat)
    (from_index to_index : Nat) (hne : from_index ≠ to_index)
    (hf : from_index < tabs.length) (ht : to_index ≤ tabs.length) :
    (handle_tab_reorder tabs active from_index to_index).tabs.Perm tabs := by
  rw [handle_tab_reorder_eq_of_valid tabs active from_index to_index hne hf ht]
  have hrlen : (tabs.eraseIdx from_index).length = tabs.length - 1 :=
    List.length_eraseIdx_of_lt hf
  have hIle : insertIndex from_index to_index ≤ tabs.length - 1 := by
    unfold insertIndex; split <;> omega
  have h1 : ((tabs.eraseIdx from_index).insertIdx (insertIndex from_index to_index)
      (tabs.get ⟨from_index, hf⟩)).Perm
      (tabs.get ⟨from_index, hf⟩ :: tabs.eraseIdx from_index) :=
    perm_insertIdx _ _ _ (by omega)
  exact h1.trans (perm_get_cons_eraseIdx tabs from_index hf).symm

theorem reorder_tabs_length {α : Type} (tabs : List α) (active : Nat)
    (from_index to_index : Nat) (hne : from_index ≠ to_index)
    (hf : from_index < tabs.length) (ht : to_index ≤ tabs.length) :
    (handle_tab_reorder tabs active from_index to_index).tabs.length =
      tabs.length :=
  (reorder_tabs_perm tabs active from_index to_index hne hf ht).length_eq

theorem getElem?_insertIdx_of_lt {α : Type} (l : List α) (x : α) (n k : Nat)
    (hn : k < n) (hk : k < l.length) :
    (l.insertIdx n x)[k]? = l[k]? := by
  have hk' : k < (l.insertIdx n x).length :=
    Nat.lt_of_lt_of_le hk (List.length_le_length_insertIdx l x n)
  rw [List.getElem?_eq_getElem hk', List.getElem?_eq_getElem hk,
    List.getElem_insertIdx_of_lt l x n k hn hk]

theorem getElem?_insertIdx_self_eq {α : Type} (l : List α) (x : α) (n : Nat)
    (hn : n ≤ l.length) :
    (l.insertIdx n x)[n]? = some x := by
  have hn' : n < (l.insertIdx n x).length := by
    rw [List.length_insertIdx n l hn]; omega
  rw [List.getElem?_eq_getElem hn', List.getElem_insertIdx_self l x n hn]

theorem getElem?_insertIdx_add_succ_eq {α : Type} (l : List α) (x : α)
    (n k : Nat) (hk : n + k < l.length) :
    (l.insertIdx n x)[n + k + 1]? = l[n + k]? := by
  have h1 : n + k + 1 < (l.insertIdx n x).length := by
    rw [List.length_insertIdx n l (by omega)]; omega
  rw [List.getElem?_eq_getElem h1, List.getElem?_eq_getElem hk,
    List.getElem_insertIdx_add_succ l x n k hk]

theorem getElem?_insertIdx_of_gt {α : Type} (l : List α) (x : α) (n j : Nat)
    (hn : n ≤ j) (hk : j < l.length) :
    (l.insertIdx n x)[j + 1]? = l[j]? := by
  have h1 : j + 1 = n + (j - n) + 1 := by omega
  rw [h1, getElem?_insertIdx_add_succ_eq l x n (j - n) (by omega)]
  have h2 : n + (j - n) = j := by omega
  rw [h2]

/-- C1: active-index rebasing is correct.  For every collection, every
active index below the length, and every accepted
`reorder(from_index, to_index)`, the rebased active index produced by the
four-armed rule of the source points at the same logical tab (the same
element value at the rebased position) that was active before the move —
for forward and backward moves alike, whether or not the active tab itself
moved. -/
theorem active_rebasing_correct {α : Type} (tabs : List α) (active : Nat)
    (from_index to_index : Nat) (ha : active < tabs.length)
    (hf : from_index < tabs.length) (ht : to_index ≤ tabs.length)
    (hne : from_index ≠ to_index) :
    (handle_tab_reorder tabs active from_index to_index).tabs[
      (handle_tab_reorder tabs active from_index to_index).active]? =
      tabs[active]? := by
  rw [handle_tab_reorder_eq_of_valid tabs active from_index to_index hne hf ht]
  simp only
  have hrlen : (tabs.eraseIdx from_index).length = tabs.length - 1 :=
    List.length_eraseIdx_of_lt hf
  have hIle : insertIndex from_index to_index ≤ tabs.length - 1 := by
    unfold insertIndex; split <;> omega
  split_ifs with h1 h2 h3
  · -- the active tab itself moved: new active is the insertion index
    rw [getElem?_insertIdx_self_eq (tabs.eraseIdx from_index)
        (tabs.get ⟨from_index, hf⟩) (insertIndex from_index to_index) (by omega),
      h1, List.getElem?_eq_getElem hf]
    simp [List.get_eq_getElem]
  · -- forward move over the active tab: it shifted left by one
    obtain ⟨h2a, h2b⟩ := h2
    rw [getElem?_insertIdx_of_lt (tabs.eraseIdx from_index)
        (tabs.get ⟨from_index, hf⟩) (insertIndex from_index to_index)
        (active - 1) (by omega) (by omega),
      List.getElem?_eraseIdx_of_ge tabs from_index (active - 1) (by omega)]
    have hsucc : active - 1 + 1 = active := by omega
    rw [hsucc]
  · -- backward move over the active tab: it shifted right by one
    obtain ⟨h3a, h3b⟩ := h3
    rw [getElem?_insertIdx_of_gt (tabs.eraseIdx from_index)
        (tabs.get ⟨from_index, hf⟩) (insertIndex from_index to_index)
        active h3a (by omega),
      List.getElem?_eraseIdx_of_lt tabs from_index active h3b]
  · -- the active tab is outside the affected range
    by_cases hlt : active < from_index
    · have hIa : active < insertIndex from_index to_index := by
        rcases Nat.lt_or_ge active (insertIndex from_index to_index) with h | h
        · exact h
        · exact absurd ⟨h, hlt⟩ h3
      rw [getElem?_insertIdx_of_lt (tabs.eraseIdx from_index)
          (tabs.get ⟨from_index, hf⟩) (insertIndex from_index to_index)
          active hIa (by omega),
        List.getElem?_eraseIdx_of_lt tabs from_index active hlt]
    · have hgt : from_index < active := by omega
      have hIa : insertIndex from_index to_index < active := by
        rcases Nat.lt_or_ge (insertIndex from_index to_index) active with h | h
        · exact h
        · exact absurd ⟨hgt, h⟩ h2
      have hsucc : active = active - 1 + 1 := by omega
      rw [hsucc, getElem?_insertIdx_of_gt (tabs.eraseIdx from_index)
          (tabs.get ⟨from_index, hf⟩) (insertIndex from_index to_index)
          (active - 1) (by omega) (by omega),
        List.getElem?_eraseIdx_of_ge tabs from_index (active - 1) (by omega)]

theorem active_rebasing_correct_witness :
    ((1 : Nat) < ([10, 20, 30] : List Nat).length ∧
      (0 : Nat) < ([10, 20, 30] : List Nat).length ∧
      (2 : Nat) ≤ ([10, 20, 30] : List Nat).length ∧ (0 : Nat) ≠ 2) ∧
    (handle_tab_reorder ([10, 20, 30] : List Nat) 1 0 2).tabs[
      (handle_tab_reorder ([10, 20, 30] : List Nat) 1 0 2).active]? =
      ([10, 20, 30] : List Nat)[1]? :=
  ⟨⟨by simp, by simp, by simp, by simp⟩,
    active_rebasing_correct [10, 20, 30] 1 0 2 (by simp) (by simp) (by simp)
      (by simp)⟩

/-- C7: `reorder` with `from_index == to_index`, or with `from_index` at or
beyond the length, or with `to_index` beyond the length, is a strict no-op:
the tab sequence and the active index are unchanged and the call returns
`none` (a no-op report, not an error). -/
theorem reorder_invalid_is_noop {α : Type} (tabs : List α) (active : Nat)
    (from_index to_index : Nat)
    (h : from_index = to_index ∨ tabs.length ≤ from_index ∨
      tabs.length < to_index) :
    (handle_tab_reorder tabs active from_index to_index).tabs = tabs ∧
    (handle_tab_reorder tabs active from_index to_index).active = active ∧
    (handle_tab_reorder tabs active from_index to_index).result = none := by
  rw [handle_tab_reorder_noop tabs active from_index to_index h]
  exact ⟨rfl, rfl, rfl⟩

theorem reorder_invalid_is_noop_witness :
    ((5 : Nat) = 0 ∨ ([10, 20] : List Nat).length ≤ 5 ∨
      ([10, 20] : List Nat).length < 0) ∧
    ((handle_tab_reorder ([10, 20] : List Nat) 0 5 0).tabs = [10, 20] ∧
      (handle_tab_reorder ([10, 20] : List Nat) 0 5 0).active = 0 ∧
      (handle_tab_reorder ([10, 20] : List Nat) 0 5 0).result = none) :=
  ⟨by simp, reorder_invalid_is_noop [10, 20] 0 5 0 (by simp)⟩

/-- C10: for every collection and valid index `i` with `i + 1 ≤ length`,
`reorder(i, i + 1)` leaves the tab sequence and the active index completely
unchanged, yet returns `some i` — a reported "successful move" rather than
the `none` no-op result. -/
theorem reorder_adjacent_forward_identity {α : Type} (tabs : List α)
    (active i : Nat) (h : i + 1 ≤ tabs.length) :
    handle_tab_reorder tabs active i (i + 1) = ⟨tabs, active, some i⟩ := by
  have hf : i < tabs.length := h
  rw [handle_tab_reorder_eq_of_valid tabs active i (i + 1) (by omega) hf h]
  have hins : insertIndex i (i + 1) = i := by
    unfold insertIndex; rw [if_pos (Nat.lt_succ_self i)]; rfl
  simp only [hins, ReorderResult.mk.injEq]
  refine ⟨insertIdx_get_eraseIdx tabs i hf, ?_, trivial⟩
  split_ifs with h1 h2 h3 <;> omega

theorem reorder_adjacent_forward_identity_witness :
    (1 : Nat) + 1 ≤ ([10, 20, 30] : List Nat).length ∧
    handle_tab_reorder ([10, 20, 30] : List Nat) 0 1 2 =
      ⟨[10, 20, 30], 0, some 1⟩ :=
  ⟨by simp, reorder_adjacent_forward_identity [10, 20, 30] 0 1 (by simp)⟩

/-- C6: a valid reorder (`from_index < length`, `to_index ≤ length`,
`from_index ≠ to_index`) produces the original sequence with the tab
removed at `from_index` and re-inserted at the corrected index
(`to_index - 1` when `from_index < to_index`, else `to_index`), returns
`some` of that corrected index, and preserves the multiset of tabs and the
length of the collection. -/
theorem reorder_valid_spec {α : Type} (tabs : List α) (active : Nat)
    (from_index to_index : Nat) (hf : from_index < tabs.length)
    (ht : to_index ≤ tabs.length) (hne : from_index ≠ to_index) :
    (handle_tab_reorder tabs active from_index to_index).tabs =
      (tabs.eraseIdx from_index).insertIdx (insertIndex from_index to_index)
        (tabs.get ⟨from_index, hf⟩) ∧
    (handle_tab_reorder tabs active from_index to_index).result =
      some (insertIndex from_index to_index) ∧
    ((handle_tab_reorder tabs active from_index to_index).tabs : Multiset α) =
      (tabs : Multiset α) ∧
    (handle_tab_reorder tabs active from_index to_index).tabs.length =
      tabs.length := by
  refine ⟨?_, ?_, ?_, reorder_tabs_length tabs active from_index to_index hne hf ht⟩
  · rw [handle_tab_reorder_eq_of_valid tabs active from_index to_index hne hf ht]
  · rw [handle_tab_reorder_eq_of_valid tabs active from_index to_index hne hf ht]
  · exact Multiset.coe_eq_coe.mpr
      (reorder_tabs_perm tabs active from_index to_index hne hf ht)

theorem reorder_valid_spec_witness :
    ((0 : Nat) < ([10, 20, 30] : List Nat).length ∧
      (2 : Nat) ≤ ([10, 20, 30] : List Nat).length ∧ (0 : Nat) ≠ 2) ∧
    ((handle_tab_reorder ([10, 20, 30] : List Nat) 1 0 2).tabs =
        (([10, 20, 30] : List Nat).eraseIdx 0).insertIdx (insertIndex 0 2)
          (([10, 20, 30] : List Nat).get ⟨0, by simp⟩) ∧
      (handle_tab_reorder ([10, 20, 30] : List Nat) 1 0 2).result =
        some (insertIndex 0 2) ∧
      ((handle_tab_reorder ([10, 20, 30] : List Nat) 1 0 2).tabs :
          Multiset Nat) = (([10, 20, 30] : List Nat) : Multiset Nat) ∧
      (handle_tab_reorder ([10, 20, 30] : List Nat) 1 0 2).tabs.length =
        ([10, 20, 30] : List Nat).length) :=
  ⟨⟨by simp, by simp, by simp⟩,
    reorder_valid_spec [10, 20, 30] 1 0 2 (by simp) (by simp) (by simp)⟩

/-- C9: the invariant `active index < length` is preserved by every
`reorder` call, accepted or rejected: if `active < length` before the call
then the post-call active index is again strictly below the post-call
length. -/
theorem reorder_preserves_active_invariant {α : Type} (tabs : List α)
    (active : Nat) (from_index to_index : Nat) (ha : active < tabs.length) :
    (handle_tab_reorder tabs active from_index to_index).active <
      (handle_tab_reorder tabs active from_index to_index).tabs.length := by
  by_cases h : from_index = to_index ∨ tabs.length ≤ from_index ∨
      tabs.length < to_index
  · rw [handle_tab_reorder_noop tabs active from_index to_index h]
    exact ha
  · push_neg at h
    obtain ⟨hne, hf, ht⟩ := h
    have hlen := reorder_tabs_length tabs active from_index to_index hne hf ht
    rw [handle_tab_reorder_eq_of_valid tabs active from_index to_index hne hf ht] at hlen ⊢
    have hIle : insertIndex from_index to_index ≤ tabs.length - 1 := by
      unfold insertIndex; split <;> omega
    simp only at hlen ⊢
    rw [hlen]
    split_ifs with h1 h2 h3 <;> omega

theorem reorder_preserves_active_invariant_witness :
    (1 : Nat) < ([10, 20, 30] : List Nat).length ∧
    (handle_tab_reorder ([10, 20, 30] : List Nat) 1 2 0).active <
      (handle_tab_reorder ([10, 20, 30] : List Nat) 1 2 0).tabs.length :=
  ⟨by simp, reorder_preserves_active_invariant [10, 20, 30] 1 2 0 (by simp)⟩

/-- C8: a tab is marked transferable iff its content is file-backed (`File`
or `FileError`, not the welcome/inline, preferences, or empty placeholder)
and the window currently holds more than one tab; in particular, with
exactly one tab in the window the sole remaining tab is never
transferable. -/
theorem is_transferable_characterization (tab : Tab) (n : Nat) :
    (is_transferable tab n = true ↔
      ((∃ p, tab.content = TabContent.File p) ∨
        (∃ p e, tab.content = TabContent.FileError p e)) ∧ 1 < n) ∧
    is_transferable tab 1 = false := by
  unfold is_transferable
  cases htc : tab.content <;> simp [htc]

theorem processResponses_filter (request_id : Uuid)
    (rs : List TabTransferResponse) :
    processResponses request_id rs =
      processResponses request_id (rs.filter (matchesId request_id)) := by
  induction rs with
  | nil => rfl
  | cons r rs ih =>
    cases r with
    | Ack id w =>
      by_cases h : id = request_id
      · simp [processResponses, List.filter_cons, matchesId, responseId, h]
      · simp [processResponses, List.filter_cons, matchesId, responseId, h, ih]
    | Nack id reason =>
      by_cases h : id = request_id
      · simp [processResponses, List.filter_cons, matchesId, responseId, h]
      · simp [processResponses, List.filter_cons, matchesId, responseId, h, ih]

theorem processResponses_commit_iff (request_id : Uuid)
    (rs : List TabTransferResponse)
    (hone : (rs.filter (matchesId request_id)).length ≤ 1) :
    processResponses request_id rs = TransferOutcome.commit ↔
      ∃ w, TabTransferResponse.Ack request_id w ∈ rs := by
  induction rs with
  | nil => simp [processResponses]
  | cons r rs ih =>
    cases r with
    | Ack id w =>
      by_cases h : id = request_id
      · subst h
        constructor
        · intro _
          exact ⟨w, List.mem_cons_self _ _⟩
        · intro _
          simp [processResponses]
      · have hone' : (rs.filter (matchesId request_id)).length ≤ 1 := by
          simpa [List.filter_cons, matchesId, responseId, h] using hone
        have hstep : processResponses request_id
            (TabTransferResponse.Ack id w :: rs) =
            processResponses request_id rs := by
          simp [processResponses, h]
        rw [hstep, ih hone']
        constructor
        · rintro ⟨w', hw⟩
          exact ⟨w', List.mem_cons_of_mem _ hw⟩
        · rintro ⟨w', hw⟩
          rcases List.mem_cons.mp hw with heq | hmem
          · injection heq with h1 h2
            exact absurd h1.symm h
          · exact ⟨w', hmem⟩
    | Nack id reason =>
      by_cases h : id = request_id
      · subst h
        constructor
        · intro hc
          simp [processResponses] at hc
        · rintro ⟨w, hw⟩
          rcases List.mem_cons.mp hw with heq | hmem
          · cases heq
          · exfalso
            have hmemf : TabTransferResponse.Ack id w ∈
                rs.filter (matchesId id) :=
              List.mem_filter.mpr ⟨hmem, by simp [matchesId, responseId]⟩
            have hpos : 0 < (rs.filter (matchesId id)).length :=
              List.length_pos.mpr (List.ne_nil_of_mem hmemf)
            have hcons : ((TabTransferResponse.Nack id reason ::
                rs).filter (matchesId id)).length =
                (rs.filter (matchesId id)).length + 1 := by
              simp [List.filter_cons, matchesId, responseId]
            omega
      · have hone' : (rs.filter (matchesId request_id)).length ≤ 1 := by
          simpa [List.filter_cons, matchesId, responseId, h] using hone
        have hstep : processResponses request_id
            (TabTransferResponse.Nack id reason :: rs) =
            processResponses request_id rs := by
          simp [processResponses, h]
        rw [hstep, ih hone']
        constructor
        · rintro ⟨w', hw⟩
          exact ⟨w', List.mem_cons_of_mem _ hw⟩
        · rintro ⟨w', hw⟩
          rcases List.mem_cons.mp hw with heq | hmem
          · cases heq
          · exact ⟨w', hmem⟩

theorem handle_move_to_window_eval (tabs : List Tab) (index : Nat)
    (request_id : Uuid) (rs : List TabTransferResponse)
    (hidx : index < tabs.length) :
    (handle_move_to_window tabs index request_id true rs).1 =
      (if processResponses request_id rs = TransferOutcome.commit then
        close_tab tabs index else tabs) ∧
    (handle_move_to_window tabs index request_id false rs).1 = tabs := by
  have hget : get_tab tabs index = some tabs[index] :=
    List.getElem?_eq_getElem hidx
  constructor
  · unfold handle_move_to_window
    rw [hget]
    cases h : processResponses request_id rs <;> simp [h]
  · unfold handle_move_to_window
    rw [hget]
    simp

/-- C5: in every execution of the transfer flow the spawned task subscribes
to the response channel strictly before publishing the `TransferRequest`:
the action trace is either empty (no tab at the index, so nothing is ever
sent) or begins with `subscribe` immediately followed by `publish`. -/
theorem subscribe_before_publish (tabs : List Tab) (index : Nat)
    (request_id : Uuid) (publish_ok : Bool)
    (responses : List TabTransferResponse) :
    (handle_move_to_window tabs index request_id publish_ok responses).2 =
      [] ∨
    ∃ rest, (handle_move_to_window tabs index request_id publish_ok
        responses).2 =
      TransferEvent.subscribe :: TransferEvent.publish request_id :: rest := by
  unfold handle_move_to_window
  cases hget : get_tab tabs index with
  | none => exact Or.inl rfl
  | some t =>
    by_cases hp : publish_ok = false
    · rw [if_pos hp]
      exact Or.inr ⟨[], rfl⟩
    · rw [if_neg hp]
      cases hpr : processResponses request_id responses
      · exact Or.inr ⟨[TransferEvent.closeTab index], rfl⟩
      · exact Or.inr ⟨[], rfl⟩
      · exact Or.inr ⟨[], rfl⟩

/-- C4: the outcome of a waiting transfer task depends only on the
responses bearing its own request identifier: two delivered response
sequences that agree on the subsequence matching the task's identifier
(differing arbitrarily in responses of other, concurrent transfers)
produce the same final collection and the same action trace; non-matching
responses are skipped and listening continues. -/
theorem outcome_depends_only_on_own_responses (tabs : List Tab) (index : Nat)
    (request_id : Uuid) (publish_ok : Bool)
    (rs₁ rs₂ : List TabTransferResponse)
    (hfilter : rs₁.filter (matchesId request_id) =
      rs₂.filter (matchesId request_id)) :
    handle_move_to_window tabs index request_id publish_ok rs₁ =
      handle_move_to_window tabs index request_id publish_ok rs₂ := by
  have hpr : processResponses request_id rs₁ =
      processResponses request_id rs₂ := by
    rw [processResponses_filter request_id rs₁, hfilter,
      ← processResponses_filter request_id rs₂]
  unfold handle_move_to_window
  rw [hpr]

theorem outcome_depends_only_on_own_responses_witness :
    ([TabTransferResponse.Ack 1 7].filter (matchesId 0) =
      ([] : List TabTransferResponse).filter (matchesId 0)) ∧
    handle_move_to_window [tabA, tabB] 0 0 true
        [TabTransferResponse.Ack 1 7] =
      handle_move_to_window [tabA, tabB] 0 0 true [] :=
  ⟨by decide, outcome_depends_only_on_own_responses [tabA, tabB] 0 0 true
    [TabTransferResponse.Ack 1 7] [] (by decide)⟩

/-- C2: with a valid tab index and the protocol's guarantee that at most
one response matches the freshly generated identifier, the source
collection is mutated if and only if the request was published
successfully and an `Ack` bearing that identifier arrives before the
timeout; in that case exactly one tab is removed (the one at `index`,
shrinking the length by one), while on a matching `Nack`, on timeout, or
on publish failure the collection is left unchanged, with no retry. -/
theorem move_to_window_commit_characterization (tabs : List Tab)
    (index : Nat) (request_id : Uuid) (publish_ok : Bool)
    (rs : List TabTransferResponse) (hidx : index < tabs.length)
    (hone : (rs.filter (matchesId request_id)).length ≤ 1) :
    ((handle_move_to_window tabs index request_id publish_ok rs).1 ≠ tabs ↔
      publish_ok = true ∧ ∃ w, TabTransferResponse.Ack request_id w ∈ rs) ∧
    ((publish_ok = true ∧ ∃ w, TabTransferResponse.Ack request_id w ∈ rs) →
      (handle_move_to_window tabs index request_id publish_ok rs).1 =
        close_tab tabs index ∧
      (handle_move_to_window tabs index request_id publish_ok rs).1.length +
        1 = tabs.length) ∧
    (¬(publish_ok = true ∧ ∃ w, TabTransferResponse.Ack request_id w ∈ rs) →
      (handle_move_to_window tabs index request_id publish_ok rs).1 =
        tabs) := by
  have heval := handle_move_to_window_eval tabs index request_id rs hidx
  have hclose : (close_tab tabs index).length + 1 = tabs.length := by
    unfold close_tab
    rw [List.length_eraseIdx_of_lt hidx]
    omega
  have hcne : close_tab tabs index ≠ tabs := by
    intro h
    rw [h] at hclose
    omega
  have hiff := processResponses_commit_iff request_id rs hone
  cases publish_ok with
  | false =>
    have hres := heval.2
    refine ⟨?_, ?_, fun _ => hres⟩
    · constructor
      · intro hc
        exact absurd hres hc
      · rintro ⟨hpub, _⟩
        cases hpub
    · rintro ⟨hpub, _⟩
      cases hpub
  | true =>
    by_cases hack : ∃ w, TabTransferResponse.Ack request_id w ∈ rs
    · have hcommit : processResponses request_id rs =
          TransferOutcome.commit := hiff.mpr hack
      have hres : (handle_move_to_window tabs index request_id true rs).1 =
          close_tab tabs index := by
        rw [heval.1, if_pos hcommit]
      rw [hres]
      exact ⟨⟨fun _ => ⟨rfl, hack⟩, fun _ => hcne⟩,
        fun _ => ⟨rfl, hclose⟩,
        fun hcon => absurd ⟨rfl, hack⟩ hcon⟩
    · have hnc : processResponses request_id rs ≠ TransferOutcome.commit :=
        fun hc => hack (hiff.mp hc)
      have hres : (handle_move_to_window tabs index request_id true rs).1 =
          tabs := by
        rw [heval.1, if_neg hnc]
      rw [hres]
      exact ⟨⟨fun hc => absurd rfl hc, fun hc => absurd hc.2 hack⟩,
        fun hc => absurd hc.2 hack,
        fun _ => rfl⟩

theorem move_to_window_commit_characterization_witness :
    ((0 : Nat) < ([tabA, tabB] : List Tab).length ∧
      (([TabTransferResponse.Ack 0 7] : List TabTransferResponse).filter
        (matchesId 0)).length ≤ 1) ∧
    (((handle_move_to_window [tabA, tabB] 0 0 true
          [TabTransferResponse.Ack 0 7]).1 ≠ [tabA, tabB] ↔
        true = true ∧ ∃ w, TabTransferResponse.Ack 0 w ∈
          [TabTransferResponse.Ack 0 7]) ∧
      ((true = true ∧ (∃ w, TabTransferResponse.Ack 0 w ∈
          [TabTransferResponse.Ack 0 7])) →
        (handle_move_to_window [tabA, tabB] 0 0 true
            [TabTransferResponse.Ack 0 7]).1 = close_tab [tabA, tabB] 0 ∧
        (handle_move_to_window [tabA, tabB] 0 0 true
            [TabTransferResponse.Ack 0 7]).1.length + 1 =
          ([tabA, tabB] : List Tab).length) ∧
      (¬(true = true ∧ ∃ w, TabTransferResponse.Ack 0 w ∈
          [TabTransferResponse.Ack 0 7]) →
        (handle_move_to_window [tabA, tabB] 0 0 true
            [TabTransferResponse.Ack 0 7]).1 = [tabA, tabB])) :=
  ⟨⟨by simp, by decide⟩,
    move_to_window_commit_characterization [tabA, tabB] 0 0 true
      [TabTransferResponse.Ack 0 7] (by simp) (by decide)⟩

/-- C3 counterexample: in the "Open in New Window" menu path, with two tabs
and a spawned window creation that has not (and never) succeeded, the
source tab is removed anyway — the handler closes the tab immediately
after spawning the creation task instead of awaiting it. -/
theorem open_in_new_window_removes_despite_failed_creation :
    handle_open_in_new_window [tabA, tabB] 0 false ≠ [tabA, tabB] ∧
    handle_open_in_new_window [tabA, tabB] 0 false = [tabB] :=
  ⟨by decide, rfl⟩

/-- C3 amended: the two "move to a brand-new window" triggers behave
differently.  In the drag-out path (`ondragend`) the source tab is removed
only after the awaited window creation has run to completion, and remains
intact when it has not; in the "Open in New Window" menu path the source
tab is removed unconditionally at invocation time, regardless of the
spawned creation's outcome (fire-and-forget). -/
theorem new_window_flows_characterization (tabs : List Tab) (index : Nat)
    (c : Bool) (hidx : index < tabs.length) :
    dragend_new_window tabs index false = tabs ∧
    dragend_new_window tabs index true = close_tab tabs index ∧
    handle_open_in_new_window tabs index c = close_tab tabs index := by
  have hget : get_tab tabs index = some tabs[index] :=
    List.getElem?_eq_getElem hidx
  refine ⟨?_, ?_, ?_⟩
  · unfold dragend_new_window
    rw [hget]
    simp
  · unfold dragend_new_window
    rw [hget]
    simp
  · unfold handle_open_in_new_window
    rw [hget]

theorem new_window_flows_characterization_witness :
    (0 : Nat) < ([tabA, tabB] : List Tab).length ∧
    (dragend_new_window [tabA, tabB] 0 false = [tabA, tabB] ∧
      dragend_new_window [tabA, tabB] 0 true = close_tab [tabA, tabB] 0 ∧
      handle_open_in_new_window [tabA, tabB] 0 false =
        close_tab [tabA, tabB] 0) :=
  ⟨by simp, new_window_flows_characterization [tabA, tabB] 0 false (by simp)⟩

end Arto
